import Mathlib

/-!
Verification of the client-side accounting core of the Business-Accounting-App
frontend: the transaction normalizer and reducer store (AppContext.tsx), the
workbook-sheet parser (UploadPage.tsx, handleFileUpload and
processAndUpdateAccounts), the report aggregator (ReportsPage, generateReports)
and the editor running-balance pass (TransactionEditor,
transactionsWithRunningBalance).

Embedding conventions: JavaScript Record maps are association lists in
insertion order (JS objects enumerate keys in insertion order and never hold
duplicate keys); currency values are integers, matching the app's whole-rupiah
amounts, so the coercion pattern Number(v) or-else 0 is modelled as integer
parsing with failure collapsing to 0; the nondeterministic parts (generated
ids via Math.random and Date.now, and the current date) are passed in
explicitly through an environment.
-/

namespace Accounting

/-- Canonical transaction shape, from the frontend types module:
id, tanggal (ISO date string), uraian (description), penerimaan (income
category map), pengeluaran (expense category map), jumlah (net amount),
saldo_berjalan (running balance). -/
structure TransactionItem where
  id : String
  tanggal : String
  uraian : String
  penerimaan : List (String × Int)
  pengeluaran : List (String × Int)
  jumlah : Int
  saldo_berjalan : Int
  deriving Repr, DecidableEq

/-- A raw scalar value as it may arrive in an untyped map cell. -/
inductive JsVal where
  | num (n : Int)
  | str (s : String)
  | null
  deriving Repr, DecidableEq

/-- Value of a nonempty run of decimal digits; any other character run is a
parse failure. -/
def digitsVal (l : List Char) : Option Nat :=
  match l with
  | [] => none
  | _ =>
      l.foldl
        (fun acc c =>
          match acc with
          | none => none
          | some n => if c.isDigit then some (n * 10 + (c.toNat - 48)) else none)
        (some 0)

/-- Integer parsing of a decimal string: an optional leading minus followed by
a nonempty digit run; anything else fails. This is the integer-valued
restriction of the JS Number coercion (the app stores whole-rupiah values). -/
def jsParseInt (s : String) : Option Int :=
  match s.toList with
  | '-' :: rest => (digitsVal rest).map (fun n => -(n : Int))
  | l => (digitsVal l).map (fun n => (n : Int))

/-- The coercion Number(v) with NaN collapsed by the or-0 idiom used at every
call site in the source: numbers pass through, numeric strings parse, and
anything else (including parse failure) becomes 0. -/
def jsNumber : JsVal → Int
  | .num n => n
  | .str s => (jsParseInt s).getD 0
  | .null => 0

/-- A field of a raw (Partial) transaction record that the source inspects
with typeof: it may be absent, a bare string, a bare number, or a map. -/
inductive RawField where
  | undef
  | str (s : String)
  | num (n : Int)
  | obj (m : List (String × JsVal))
  deriving Repr, DecidableEq

/-- A raw transaction record (Partial TransactionItem) fed to
normalizeTransaction; every field may be missing. -/
structure RawTx where
  id : Option String
  tanggal : Option String
  uraian : Option String
  penerimaan : RawField
  pengeluaran : RawField
  jumlah : Option Int
  saldo_berjalan : Option Int
  deriving Repr, DecidableEq

/-- The JS or-default idiom (x or-else d) on an optional string: undefined and
the empty string are falsy. -/
def jsOrOptStr (o : Option String) (d : String) : String :=
  match o with
  | some s => if s = "" then d else s
  | none => d

/-- The JS or-default idiom on a present string (empty is falsy). -/
def jsOrStr (s d : String) : String :=
  if s = "" then d else s

/-- Sum of the values of a category map, as computed by the
Object.values(...).reduce((sum, val) => sum + (Number(val) or-else 0), 0)
pattern (the coercion is the identity on the integer values stored here). -/
def sumVals (m : List (String × Int)) : Int :=
  m.foldl (fun s p => s + p.2) 0

/-- Net amount of a transaction: income total minus expense total. -/
def txNet (t : TransactionItem) : Int :=
  sumVals t.penerimaan - sumVals t.pengeluaran

/-- The penerimaan/pengeluaran handling of normalizeTransaction
(AppContext.tsx lines 67-83): a bare string is wrapped under the given default
category name with Number coercion; a map is copied entry by entry with
Number coercion; anything else (including a bare number, which fails both the
typeof string and the typeof object test) leaves the empty map. -/
def normField (defaultName : String) : RawField → List (String × Int)
  | .str s => [(defaultName, jsNumber (JsVal.str s))]
  | .obj m => m.map (fun p => (p.1, jsNumber p.2))
  | .num _ => []
  | .undef => []

/-- normalizeTransaction (AppContext.tsx lines 56-97). freshId stands for the
generated tx-random id and today for the current ISO date, both of which the
source produces effectfully; both are nonempty strings in the source. -/
def normalizeTransaction (freshId today : String) (tx : RawTx) : TransactionItem :=
  let p := normField "Penerimaan" tx.penerimaan
  let g := normField "Pengeluaran" tx.pengeluaran
  { id := jsOrOptStr tx.id freshId
    tanggal := jsOrOptStr tx.tanggal today
    uraian := jsOrOptStr tx.uraian ""
    penerimaan := p
    pengeluaran := g
    jumlah := sumVals p - sumVals g
    saldo_berjalan := 0 }

/-- A typed TransactionItem viewed as a raw record, which is how the reducer
passes already-shaped transactions into normalizeTransaction. -/
def txToRaw (t : TransactionItem) : RawTx :=
  { id := some t.id
    tanggal := some t.tanggal
    uraian := some t.uraian
    penerimaan := .obj (t.penerimaan.map (fun p => (p.1, JsVal.num p.2)))
    pengeluaran := .obj (t.pengeluaran.map (fun p => (p.1, JsVal.num p.2)))
    jumlah := some t.jumlah
    saldo_berjalan := some t.saldo_berjalan }

/-- calculateAccountBalance (AppContext.tsx lines 41-53): fold the per
transaction income-minus-expense net over the list. -/
def calculateAccountBalance (transactions : List TransactionItem) : Int :=
  transactions.foldl
    (fun balance t => balance + (sumVals t.penerimaan - sumVals t.pengeluaran)) 0

/-- Account record held by the store (AccountBase in AppContext.tsx). -/
structure AccountBase where
  name : String
  transactions : List TransactionItem
  balance : Int
  deriving Repr, DecidableEq

/-- Store state (AppState in AppContext.tsx). -/
structure AppState where
  accounts : List AccountBase
  currentAccount : Option String
  isLoading : Bool
  error : Option String
  isBackendReady : Bool
  deriving Repr, DecidableEq

/-- The initial store state (AppContext.tsx lines 27-33). -/
def initialState : AppState :=
  { accounts := []
    currentAccount := none
    isLoading := false
    error := none
    isBackendReady := true }

/-- Reducer actions (AppAction in AppContext.tsx). -/
inductive AppAction where
  | setAccounts (payload : List AccountBase)
  | setCurrentAccount (payload : Option String)
  | updateAccount (accountName : String) (transactions : List TransactionItem)
  | addAccount (payload : AccountBase)
  | setLoading (payload : Bool)
  | setError (payload : Option String)
  | setBackendReady (payload : Bool)
  deriving Repr

/-- Environment supplying the effectful inputs of the source: per-position
generated transaction ids, per-position generated account ids, and the
current ISO date; all generated ids are nonempty strings in the source. -/
structure Env where
  freshId : Nat → String
  freshAccId : Nat → String
  today : String

/-- createAccount (AppContext.tsx lines 100-104): normalize every transaction
and compute the balance from the transactions as given (the source passes the
raw, pre-normalization list to calculateAccountBalance). -/
def createAccount (env : Env) (name : String) (transactions : List TransactionItem) :
    AccountBase :=
  { name := name
    transactions :=
      (transactions.enum).map
        (fun p => normalizeTransaction (env.freshId p.1) env.today (txToRaw p.2))
    balance := calculateAccountBalance transactions }

/-- The accounts[0]?.name or-else null step of SET_ACCOUNTS (an empty first
name is falsy and degrades to null). -/
def firstName (accounts : List AccountBase) : Option String :=
  match accounts.head? with
  | some a => if a.name = "" then none else some a.name
  | none => none

/-- state.currentAccount or-else d, with the empty string falsy. -/
def jsOrOpt (o : Option String) (d : Option String) : Option String :=
  match o with
  | some s => if s = "" then d else some s
  | none => d

/-- appReducer (AppContext.tsx lines 107-171). -/
def appReducer (env : Env) (state : AppState) (action : AppAction) : AppState :=
  match action with
  | .setAccounts payload =>
      let accounts :=
        payload.map (fun a => { a with balance := calculateAccountBalance a.transactions })
      { state with
        accounts := accounts
        currentAccount := jsOrOpt state.currentAccount (firstName accounts)
        isLoading := false
        error := none }
  | .setCurrentAccount p => { state with currentAccount := p }
  | .updateAccount accountName transactions =>
      { state with
        accounts :=
          state.accounts.map (fun a =>
            if a.name = accountName then createAccount env accountName transactions else a) }
  | .addAccount payload =>
      let accountName :=
        jsOrStr payload.name ("Akun Baru " ++ toString (state.accounts.length + 1))
      if state.accounts.any (fun a => a.name == accountName) then state
      else
        { state with
          accounts := state.accounts ++ [createAccount env accountName payload.transactions]
          currentAccount := some accountName }
  | .setLoading b => { state with isLoading := b }
  | .setError e => { state with error := e, isLoading := false }
  | .setBackendReady b => { state with isBackendReady := b }

/-- A transaction is canonical when its generated fields are present (nonempty
id and date), its jumlah equals its own income/expense net, and its running
balance is the normalizer's fixed 0. -/
def isCanonical (t : TransactionItem) : Prop :=
  t.id ≠ "" ∧ t.tanggal ≠ "" ∧ t.jumlah = txNet t ∧ t.saldo_berjalan = 0

def tCanon : TransactionItem :=
  { id := "tx-1", tanggal := "2024-01-05", uraian := "jual"
    penerimaan := [("a", 10)], pengeluaran := [("b", 4)]
    jumlah := 6, saldo_berjalan := 0 }

def xRawMixed : RawTx :=
  { id := none, tanggal := none, uraian := some "y"
    penerimaan := .str "25", pengeluaran := .num 7
    jumlah := some 99, saldo_berjalan := some 55 }

def rawNumIncome : RawTx :=
  { id := none, tanggal := none, uraian := none
    penerimaan := .num 5000, pengeluaran := .undef
    jumlah := none, saldo_berjalan := none }

def rawStrIncome : RawTx :=
  { id := none, tanggal := none, uraian := none
    penerimaan := .str "5000", pengeluaran := .undef
    jumlah := none, saldo_berjalan := none }

def rawStrExpense : RawTx :=
  { id := none, tanggal := none, uraian := none
    penerimaan := .undef, pengeluaran := .str "5000"
    jumlah := none, saldo_berjalan := none }

/-- A concrete environment for witnesses: deterministic fresh ids and a fixed
current date. -/
def env0 : Env :=
  { freshId := fun i => "tx-" ++ toString i
    freshAccId := fun i => "acc-" ++ toString i
    today := "2024-06-01" }

/-- The claimed store invariant: the current-account pointer is null or names
an existing account, and it is non-null whenever any account exists. -/
def pointerValid (s : AppState) : Prop :=
  (∀ c, s.currentAccount = some c → ∃ a ∈ s.accounts, a.name = c) ∧
  (s.accounts ≠ [] → s.currentAccount ≠ none)

/-- States reachable from the initial store state by dispatching any sequence
of actions (under any environment of generated ids and dates). -/
inductive Reachable : AppState → Prop where
  | init : Reachable initialState
  | step {s : AppState} (env : Env) (a : AppAction) :
      Reachable s → Reachable (appReducer env s a)

/-- A reachable state whose current-account pointer names no account:
SET_CURRENT_ACCOUNT performs no existence validation. -/
def ghostState : AppState :=
  appReducer env0 initialState (.setCurrentAccount (some "ghost"))

/-- Side conditions on dispatched actions under which the pointer invariant is
preserved: SET_CURRENT_ACCOUNT must name an existing account (or null only
when no account exists), and SET_ACCOUNTS must keep the current account's name
in the payload (when one is set and nonempty) and must not start with an
empty-named account when nonempty. All other actions are unrestricted. -/
def validAction (s : AppState) : AppAction → Prop
  | .setCurrentAccount p =>
      match p with
      | some c => ∃ a ∈ s.accounts, a.name = c
      | none => s.accounts = []
  | .setAccounts payload =>
      (∀ c, s.currentAccount = some c → c ≠ "" → ∃ a ∈ payload, a.name = c) ∧
      (∀ a, payload.head? = some a → a.name ≠ "")
  | _ => True

/-- An account fixture. -/
def acctA : AccountBase := { name := "A", transactions := [], balance := 0 }

/-- A store holding the single account A, with A current. -/
def sOneA : AppState :=
  { accounts := [acctA]
    currentAccount := some "A"
    isLoading := false
    error := none
    isBackendReady := true }

/-- An account whose name collides with the default name ADD_ACCOUNT generates
for a one-account store. -/
def acctDefault2 : AccountBase :=
  { name := "Akun Baru 2", transactions := [], balance := 0 }

/-- A store holding only the account named Akun Baru 2. -/
def sDefault2 : AppState :=
  { accounts := [acctDefault2]
    currentAccount := some "Akun Baru 2"
    isLoading := false
    error := none
    isBackendReady := true }

/-- An ADD_ACCOUNT payload with an empty (falsy) name. -/
def emptyNamePayload : AccountBase :=
  { name := "", transactions := [], balance := 0 }

/-- String.trim of the source, computed on the character list (the built-in
String.trim does not reduce in the kernel). -/
def jsTrim (s : String) : String :=
  String.mk (((s.toList.dropWhile Char.isWhitespace).reverse.dropWhile
    Char.isWhitespace).reverse)

/-- toLowerCase, computed characterwise. -/
def jsToLower (s : String) : String :=
  String.mk (s.toList.map Char.toLower)

/-- startsWith, computed on character lists. -/
def jsStartsWith (s p : String) : Bool :=
  s.toList.take p.toList.length == p.toList

/-- The first n characters of a string. -/
def strTake (s : String) (n : Nat) : String :=
  String.mk (s.toList.take n)

/-- The string without its first n characters (the category name left after
the regex strips a matched column prefix of n characters). -/
def strDrop (s : String) (n : Nat) : String :=
  String.mk (s.toList.drop n)

/-- A spreadsheet cell as delivered by sheet_to_json with defval set to the
empty string: a number or a string (missing cells read as the empty string,
and out-of-range accesses are handled by the getters below). -/
inductive Cell where
  | num (n : Int)
  | str (s : String)
  deriving Repr, DecidableEq

/-- String(value) on a cell. -/
def cellToString : Cell → String
  | .num n => toString n
  | .str s => s

/-- row[index] with the source's explicit range guard (JS findIndex returns -1
for a missing column, hence the integer index). -/
def getCell (row : List Cell) (i : Int) : Option Cell :=
  if i < 0 then none else row.get? i.toNat

/-- getStringValue (UploadPage.tsx lines 207-211). -/
def getStringValue (row : List Cell) (i : Int) : String :=
  match getCell row i with
  | some c => jsTrim (cellToString c)
  | none => ""

/-- getNumberValue (UploadPage.tsx lines 213-219): out of range, empty and
non-numeric cells read as 0. -/
def getNumberValue (row : List Cell) (i : Int) : Int :=
  match getCell row i with
  | some (.num n) => n
  | some (.str s) => if s = "" then 0 else (jsParseInt s).getD 0
  | none => 0

/-- Whether a string has the exact NNNN-NN-NN digit shape tested by the
parser's date regex. -/
def isIsoShape (s : String) : Bool :=
  match s.toList with
  | [a, b, c, d, e, f, g, h2, i, j] =>
      a.isDigit && b.isDigit && c.isDigit && d.isDigit && e == '-' &&
      f.isDigit && g.isDigit && h2 == '-' && i.isDigit && j.isDigit
  | _ => false

/-- Gregorian date (year, month, day) from a count of days since 1970-01-01,
by the standard civil-from-days conversion. -/
def civilFromDays (z0 : Int) : Int × Int × Int :=
  let z := z0 + 719468
  let era := Int.fdiv z 146097
  let doe := z - era * 146097
  let yoe := Int.fdiv (doe - Int.fdiv doe 1460 + Int.fdiv doe 36524 - Int.fdiv doe 146096) 365
  let y := yoe + era * 400
  let doy := doe - (365 * yoe + Int.fdiv yoe 4 - Int.fdiv yoe 100)
  let mp := Int.fdiv (5 * doy + 2) 153
  let d := doy - Int.fdiv (153 * mp + 2) 5 + 1
  let m := mp + (if mp < 10 then 3 else -9)
  (y + (if m ≤ 2 then 1 else 0), m, d)

/-- Two-digit zero padding (months and days). -/
def pad2 (n : Int) : String :=
  if n < 10 then "0" ++ toString n else toString n

/-- Four-digit zero padding (years, as rendered by toISOString). -/
def pad4 (n : Int) : String :=
  if n < 10 then "000" ++ toString n
  else if n < 100 then "00" ++ toString n
  else if n < 1000 then "0" ++ toString n
  else toString n

/-- ISO date of an Excel serial day number: days from the 1899-12-30 epoch,
minus one day for serials of at least 60 (the source's 1900 leap-year
correction); 25569 is the day distance from that epoch to 1970-01-01. -/
def serialToIso (v : Int) : String :=
  let days := v - 25569 - (if 60 ≤ v then 1 else 0)
  let c := civilFromDays days
  pad4 c.1 ++ "-" ++ pad2 c.2.1 ++ "-" ++ pad2 c.2.2

/-- ISO date of an epoch-milliseconds value (the generic new Date(number)
branch). -/
def msToIso (n : Int) : String :=
  let c := civilFromDays (Int.fdiv n 86400000)
  pad4 c.1 ++ "-" ++ pad2 c.2.1 ++ "-" ++ pad2 c.2.2

/-- parseExcelDate (UploadPage.tsx lines 258-289) on the date cell. Falsy
non-zero values fall back to today; a string already in the NNNN-NN-NN shape
is kept verbatim; a positive number is an Excel serial day count; any other
number goes through new Date(value), i.e. epoch milliseconds. Any other
string goes through the loose new Date(string) parse, which this embedding
approximates by the same current-date fallback an unparseable string takes
(no claim exercises that branch; the app's own dates are ISO strings). -/
def parseExcelDate (today : String) (value : Option Cell) : String :=
  match value with
  | none => today
  | some (.str s) =>
      if s = "" then today
      else if isIsoShape s then s
      else today
  | some (.num n) =>
      if 0 < n then serialToIso n
      else msToIso n

/-- findIndex with its -1 sentinel. -/
def jsFindIndex (p : String → Bool) (l : List String) : Int :=
  match l.findIdx? p with
  | some i => (i : Int)
  | none => -1

/-- The per-sheet parsing loop of handleFileUpload (UploadPage.tsx lines
169-320): trims headers, locates the required tanggal/uraian/jumlah columns
(yielding none when one is missing, which makes the source skip the sheet),
collects the penerimaan_/pengeluaran_ prefixed category columns
(case-insensitively; the suffix after the prefix becomes the category name,
and only strictly positive cell values enter a row's maps), and folds the data
rows into transactions while threading the running balance: a row whose
jumlah cell reads as 0 contributes its income-minus-expense net to the running
balance, while a nonzero jumlah cell RESETS the running balance to that value;
the jumlah field itself is copied from the jumlah cell when that cell is a
number and is 0 otherwise. Returns the transactions with the final running
balance, or none when no transaction was produced. -/
def parseSheet (env : Env) (headersRaw : List String) (dataRows : List (List Cell)) :
    Option (List TransactionItem × Int) :=
  let headers := headersRaw.map jsTrim
  let dateCol := jsFindIndex (fun h2 => jsToLower h2 == "tanggal") headers
  let descCol := jsFindIndex (fun h2 => jsToLower h2 == "uraian") headers
  let jumlahCol := jsFindIndex (fun h2 => jsToLower h2 == "jumlah") headers
  let penCols := (headers.enum).filterMap
    (fun p => if jsStartsWith (jsToLower p.2) "penerimaan_" then some p.1 else none)
  let pengCols := (headers.enum).filterMap
    (fun p => if jsStartsWith (jsToLower p.2) "pengeluaran_" then some p.1 else none)
  if dateCol == -1 || descCol == -1 || jumlahCol == -1 then none
  else
    let res := (dataRows.enum).foldl
      (fun (acc : List TransactionItem × Int) ir =>
        let rb := acc.2
        let row := ir.2
        if row.length = 0 then acc
        else
          let penerimaan := penCols.foldl
            (fun m col =>
              let v := getNumberValue row ((col : Nat) : Int)
              if 0 < v then m ++ [(strDrop (headers.getD col "") 11, v)] else m) []
          let pengeluaran := pengCols.foldl
            (fun m col =>
              let v := getNumberValue row ((col : Nat) : Int)
              if 0 < v then m ++ [(strDrop (headers.getD col "") 12, v)] else m) []
          let amount := match getCell row jumlahCol with
            | some (.num n) => n
            | _ => 0
          let saldo0 := getNumberValue row jumlahCol
          let rb2 := if saldo0 = 0 then rb + (sumVals penerimaan - sumVals pengeluaran)
                     else saldo0
          let tx : TransactionItem :=
            { id := env.freshId ir.1
              tanggal := parseExcelDate env.today (getCell row dateCol)
              uraian := jsOrStr (getStringValue row descCol) "Transaksi Tanpa Keterangan"
              penerimaan := penerimaan
              pengeluaran := pengeluaran
              jumlah := amount
              saldo_berjalan := rb2 }
          (acc.1 ++ [tx], rb2))
      ([], 0)
    if res.1.length = 0 then none else some res

/-- An upload-stage account as handleFileUpload produces it and
processAndUpdateAccounts consumes it (AccountData in UploadPage.tsx): the
store fields plus the generated account id, which the follow-up
SET_CURRENT_ACCOUNT dispatch of processAndUpdateAccounts reads; the currency,
flag and timestamp fields, which nothing reads back, are omitted. -/
structure AccountData where
  id : String
  name : String
  transactions : List TransactionItem
  balance : Int
  deriving Repr, DecidableEq

/-- The store account carried by the SET_ACCOUNTS payload for an upload-stage
account (the reducer's typed AccountBase shape). -/
def toAccountBase (a : AccountData) : AccountBase :=
  { name := a.name, transactions := a.transactions, balance := a.balance }

/-- A parsed sheet as an account (UploadPage.tsx lines 309-320): the sheet
name becomes the account name and the final running balance the balance;
accountId stands for the generated acc-timestamp-sheetname id of line 311,
a nonempty string in the source. -/
def parseSheetAccount (env : Env) (accountId sheetName : String)
    (headersRaw : List String) (dataRows : List (List Cell)) : Option AccountData :=
  (parseSheet env headersRaw dataRows).map
    (fun r => { id := accountId, name := sheetName, transactions := r.1, balance := r.2 })

/-- The per-transaction mapping of processAndUpdateAccounts (UploadPage.tsx
lines 77-101) on typed transactions (for which the typeof string guards on the
maps are vacuous): missing id, date and description are defaulted, and jumlah
is recomputed from the maps ONLY when the supplied jumlah is 0; a nonzero
supplied jumlah is kept as is, and the spread keeps saldo_berjalan. -/
def processTx (freshId today : String) (tx : TransactionItem) : TransactionItem :=
  { id := jsOrStr tx.id freshId
    tanggal := jsOrStr tx.tanggal today
    uraian := jsOrStr tx.uraian ""
    penerimaan := tx.penerimaan
    pengeluaran := tx.pengeluaran
    jumlah := if tx.jumlah = 0 then sumVals tx.penerimaan - sumVals tx.pengeluaran
              else tx.jumlah
    saldo_berjalan := tx.saldo_berjalan }

/-- The per-account mapping of processAndUpdateAccounts (UploadPage.tsx lines
73-108): a falsy account id or name is defaulted (freshAccId stands for the
generated acc-random fallback of line 74), each transaction is mapped through
the jumlah-defaulting pass, and the balance is kept; the incidental currency,
flag and timestamp fields are omitted. -/
def processAccount (freshAccId : String) (env : Env) (a : AccountData) : AccountData :=
  { id := jsOrStr a.id freshAccId
    name := jsOrStr a.name "Akun Tanpa Nama"
    transactions := (a.transactions.enum).map
      (fun p => processTx (env.freshId p.1) env.today p.2)
    balance := a.balance }

/-- The JS truthiness of the optional currentAccount string (null and the
empty string are falsy). -/
def jsTruthyOpt (o : Option String) : Bool :=
  match o with
  | some s => s != ""
  | none => false

/-- processAndUpdateAccounts and its dispatches (UploadPage.tsx lines 70-118):
map the uploaded accounts, dispatch SET_ACCOUNTS with the result, and then,
when the list is nonempty and the state captured BEFORE the first dispatch had
no truthy current account, dispatch SET_CURRENT_ACCOUNT carrying the first
mapped account's generated ID (mappedAccounts[0].id, line 114) - the id, not
the account's name. -/
def uploadState (env : Env) (accounts : List AccountData) (state : AppState) : AppState :=
  let mapped := (accounts.enum).map (fun p => processAccount (env.freshAccId p.1) env p.2)
  let s1 := appReducer env state (.setAccounts (mapped.map toAccountBase))
  if decide (0 < mapped.length) && !(jsTruthyOpt state.currentAccount) then
    appReducer env s1 (.setCurrentAccount (mapped.head?.map (fun a => a.id)))
  else s1

/-- The header row of the C2 scenario sheet. -/
def c2Header : List String :=
  ["tanggal", "uraian", "jumlah", "penerimaan_gaji", "pengeluaran_sewa"]

/-- The single data row of the C2 scenario sheet. -/
def c2Row : List Cell :=
  [.str "2024-01-15", .str "Gaji bulanan", .num 0, .num 5000000, .num 0]

/-- A header row with a jumlah column and one income category. -/
def c1Header : List String :=
  ["tanggal", "uraian", "jumlah", "penerimaan_gaji"]

/-- A data row whose jumlah cell (999) disagrees with its income net (100). -/
def c1Row : List Cell :=
  [.str "2024-01-15", .str "Setoran", .num 999, .num 100]

/-- Year component of an ISO date string. -/
def isoYear (s : String) : Int :=
  (jsParseInt (strTake s 4)).getD 0

/-- Month component of an ISO date string. -/
def isoMonth (s : String) : Int :=
  (jsParseInt (strTake (strDrop s 5) 2)).getD 0

/-- Day component of an ISO date string. -/
def isoDay (s : String) : Int :=
  (jsParseInt (strTake (strDrop s 8) 2)).getD 0

/-- Gregorian leap year test. -/
def isLeapYear (y : Int) : Bool :=
  (y % 4 == 0 && y % 100 != 0) || y % 400 == 0

/-- Days in a Gregorian month. -/
def daysInMonth (y m : Int) : Int :=
  if m == 2 then (if isLeapYear y then 29 else 28)
  else if m == 4 || m == 6 || m == 9 || m == 11 then 30 else 31

/-- Whether new Date(s) yields a valid date for an NNNN-NN-NN shaped string:
the shape must hold and the month and day must be in calendar range (out of
range components make the JS date invalid, i.e. NaN). -/
def isValidIsoDate (s : String) : Bool :=
  isIsoShape s && decide (1 ≤ isoMonth s) && decide (isoMonth s ≤ 12) &&
  decide (1 ≤ isoDay s) && decide (isoDay s ≤ daysInMonth (isoYear s) (isoMonth s))

/-- Sort key for the date comparator new Date(a.tanggal).getTime() minus
new Date(b.tanggal).getTime(): on valid ISO date strings the encoding
year * 10000 + month * 100 + day is strictly monotone in the timestamp, so it
induces the same ordering; an invalid date (NaN in the source comparator,
whose sort order is then implementation-defined) gets key 0. -/
def dateKey (s : String) : Int :=
  if isValidIsoDate s then isoYear s * 10000 + isoMonth s * 100 + isoDay s else 0

/-- The date-sort relation on transactions. -/
def dateLe (a b : TransactionItem) : Prop :=
  dateKey a.tanggal ≤ dateKey b.tanggal

instance : DecidableRel dateLe := fun a b =>
  inferInstanceAs (Decidable (dateKey a.tanggal ≤ dateKey b.tanggal))

instance : IsTotal TransactionItem dateLe :=
  ⟨fun a b => le_total (dateKey a.tanggal) (dateKey b.tanggal)⟩

instance : IsTrans TransactionItem dateLe :=
  ⟨fun _ _ _ hab hbc => le_trans hab hbc⟩

/-- The stable date sort of generateReports (ReportsPage lines 639-641): the
ES2019 Array.prototype.sort is stable, and any stable sort under the same
total preorder produces the same list, so insertion sort embeds it. -/
def sortedByDate (transactions : List TransactionItem) : List TransactionItem :=
  List.insertionSort dateLe transactions

/-- The monthly bucket key, getFullYear joined to the zero-padded getMonth+1:
for a valid ISO date string this is exactly its first seven characters;
invalid dates yield NaN components, rendered NaN-NaN. -/
def monthKey (s : String) : String :=
  if isValidIsoDate s then strTake s 7 else "NaN-NaN"

/-- The yearly bucket key, getFullYear: the first four characters of a valid
ISO date string; NaN for invalid dates. -/
def yearKey (s : String) : String :=
  if isValidIsoDate s then strTake s 4 else "NaN"

/-- One row of the running-balance report (BalanceReport in ReportsPage). -/
structure BalanceReport where
  date : String
  income : Int
  expense : Int
  balance : Int
  runningBalance : Int
  deriving Repr, DecidableEq

/-- One period bucket of the monthly or yearly report (BalanceByPeriod). -/
structure BalanceByPeriod where
  period : String
  income : Int
  expense : Int
  balance : Int
  deriving Repr, DecidableEq

/-- In-place accumulation into the keyed record object (monthlyData and
yearlyData): the first occurrence of a key creates its entry at the end, in
insertion order; later occurrences add into the existing entry in place. -/
def bump (l : List (String × Int × Int)) (key : String) (inc exp2 : Int) :
    List (String × Int × Int) :=
  match l with
  | [] => [(key, inc, exp2)]
  | e :: rest =>
      if e.1 = key then (e.1, e.2.1 + inc, e.2.2 + exp2) :: rest
      else e :: bump rest key inc exp2

/-- Accumulator of the transaction loop in generateReports. -/
structure ReportAcc where
  running : List BalanceReport
  rb : Int
  monthly : List (String × Int × Int)
  yearly : List (String × Int × Int)

/-- The body of the sortedTransactions.forEach loop in generateReports
(ReportsPage lines 644-685): income, expense and balance are computed from the
transaction's maps, the running balance accumulates, and the monthly and
yearly buckets accumulate under the transaction's own period keys. -/
def reportStep (acc : ReportAcc) (t : TransactionItem) : ReportAcc :=
  let income := sumVals t.penerimaan
  let expense := sumVals t.pengeluaran
  let balance := income - expense
  let rb := acc.rb + balance
  { running := acc.running ++
      [{ date := t.tanggal, income := income, expense := expense,
         balance := balance, runningBalance := rb }]
    rb := rb
    monthly := bump acc.monthly (monthKey t.tanggal) income expense
    yearly := bump acc.yearly (yearKey t.tanggal) income expense }

/-- The period-key relation of the bucket sort (localeCompare on these ASCII
digit-and-hyphen keys coincides with lexicographic string order). -/
def keyLe (a b : String × Int × Int) : Prop := a.1 ≤ b.1

instance : DecidableRel keyLe := fun a b =>
  inferInstanceAs (Decidable (a.1 ≤ b.1))

instance : IsTotal (String × Int × Int) keyLe :=
  ⟨fun a b => le_total a.1 b.1⟩

instance : IsTrans (String × Int × Int) keyLe :=
  ⟨fun _ _ _ hab hbc => le_trans hab hbc⟩

/-- The Object.entries(...).sort(localeCompare) step on a bucket object. -/
def sortByKey (l : List (String × Int × Int)) : List (String × Int × Int) :=
  List.insertionSort keyLe l

/-- A sorted bucket entry rendered as a period report row, with the net
balance income minus expense. -/
def toPeriod (e : String × Int × Int) : BalanceByPeriod :=
  { period := e.1, income := e.2.1, expense := e.2.2, balance := e.2.1 - e.2.2 }

/-- The report output of generateReports restricted to the parts the claims
concern (the balance_sheet is constant, and the income_statement and
cash_flow figures are sums over these same buckets). -/
structure ReportData where
  monthly : List BalanceByPeriod
  yearly : List BalanceByPeriod
  running : List BalanceReport
  deriving Repr, DecidableEq

/-- generateReports (ReportsPage lines 630-746): sort the account's
transactions by date, fold the report accumulator over them, and emit the
monthly and yearly buckets sorted ascending by period key. -/
def generateReports (transactions : List TransactionItem) : ReportData :=
  let sorted := sortedByDate transactions
  let acc := sorted.foldl reportStep
    { running := [], rb := 0, monthly := [], yearly := [] }
  { monthly := (sortByKey acc.monthly).map toPeriod
    yearly := (sortByKey acc.yearly).map toPeriod
    running := acc.running }

/-- The recursion underlying transactionsWithRunningBalance. -/
def editorSeries (rb : Int) : List TransactionItem → List TransactionItem
  | [] => []
  | t :: rest =>
      let jumlah := sumVals t.penerimaan - sumVals t.pengeluaran
      let rb2 := rb + jumlah
      { t with jumlah := jumlah, saldo_berjalan := rb2 } :: editorSeries rb2 rest

/-- transactionsWithRunningBalance (TransactionEditor lines 28-41): map over
the transactions IN THE GIVEN ORDER, with no date sort, recomputing jumlah
from the maps and attaching the running balance accumulated in that order. -/
def transactionsWithRunningBalance (transactions : List TransactionItem) :
    List TransactionItem :=
  editorSeries 0 transactions

/-- The claimed running-balance recurrence along a series: each row's running
balance is the previous row's running balance (the argument threads it; the
series starts from 0) plus the row's own balance. -/
def chainFrom (rb : Int) : List BalanceReport → Prop
  | [] => True
  | e :: rest => e.runningBalance = rb + e.balance ∧ chainFrom e.runningBalance rest

/-- The running balance of the last row of a series, or the start value for an
empty series. -/
def lastRB (r0 : Int) : List BalanceReport → Int
  | [] => r0
  | e :: rest => lastRB e.runningBalance rest

/-- Net sum of a bucket accumulator. -/
def netSum (l : List (String × Int × Int)) : Int :=
  (l.map (fun e => e.2.1 - e.2.2)).sum

/-- A transaction dated 2024-01-10 with net amount +100. -/
def txJan10 : TransactionItem :=
  { id := "t1", tanggal := "2024-01-10", uraian := "masuk"
    penerimaan := [("kas", 100)], pengeluaran := [], jumlah := 100, saldo_berjalan := 0 }

/-- A transaction dated 2024-01-05 with net amount -30. -/
def txJan05 : TransactionItem :=
  { id := "t2", tanggal := "2024-01-05", uraian := "keluar"
    penerimaan := [], pengeluaran := [("kas", 30)], jumlah := -30, saldo_berjalan := 0 }

/-- Two distinct transactions sharing one date, for the tie-stability check. -/
def txTieA : TransactionItem :=
  { id := "tieA", tanggal := "2024-02-01", uraian := "a"
    penerimaan := [("x", 1)], pengeluaran := [], jumlah := 1, saldo_berjalan := 0 }

/-- The second same-dated transaction of the tie pair. -/
def txTieB : TransactionItem :=
  { id := "tieB", tanggal := "2024-02-01", uraian := "b"
    penerimaan := [("x", 2)], pengeluaran := [], jumlah := 2, saldo_berjalan := 0 }

lemma normField_txToRaw (d : String) (m : List (String × Int)) :
    normField d (.obj (m.map (fun p => (p.1, JsVal.num p.2)))) = m := by
  induction m with
  | nil => rfl
  | cons a l ih =>
      simpa [normField, jsNumber] using congrArg (List.cons a) (by simpa [normField] using ih)

lemma normalize_fixed (fid today : String) (t : TransactionItem) (h : isCanonical t) :
    normalizeTransaction fid today (txToRaw t) = t := by
  obtain ⟨hid, htg, hj, hsb⟩ := h
  obtain ⟨i, tg, ur, p, g, j, sb⟩ := t
  simp [txNet] at hj
  simp only at hid htg hsb
  simp [normalizeTransaction, txToRaw, normField_txToRaw, jsOrOptStr, hid, htg, hj, hsb]
  exact fun h => h.symm

lemma normalize_canonical (fid today : String) (x : RawTx)
    (hf : fid ≠ "") (ht : today ≠ "") :
    isCanonical (normalizeTransaction fid today x) := by
  refine ⟨?_, ?_, rfl, rfl⟩
  · show jsOrOptStr x.id fid ≠ ""
    cases x.id with
    | none => exact hf
    | some s =>
        by_cases h : s = "" <;> simp [jsOrOptStr, h, hf]
  · show jsOrOptStr x.tanggal today ≠ ""
    cases x.tanggal with
    | none => exact ht
    | some s =>
        by_cases h : s = "" <;> simp [jsOrOptStr, h, ht]

/-- C8: normalization is idempotent and canonical transactions are fixed
points: a canonical transaction (present generated fields, jumlah equal to its
own income/expense net, running balance 0) is returned unchanged by
normalizeTransaction, and re-normalizing any normalizer output changes
nothing, given that the generated id and current date the source substitutes
for missing fields are (as in the source) nonempty. -/
theorem c8_normalization_idempotent (fid today : String) (t : TransactionItem)
    (x : RawTx) (fid1 today1 fid2 today2 : String)
    (hcanon : isCanonical t) (hf : fid1 ≠ "") (ht : today1 ≠ "") :
    normalizeTransaction fid today (txToRaw t) = t ∧
    normalizeTransaction fid2 today2 (txToRaw (normalizeTransaction fid1 today1 x)) =
      normalizeTransaction fid1 today1 x :=
  ⟨normalize_fixed fid today t hcanon,
   normalize_fixed fid2 today2 _ (normalize_canonical fid1 today1 x hf ht)⟩

theorem c8_normalization_idempotent_witness :
    normalizeTransaction "f" "2024-01-01" (txToRaw tCanon) = tCanon ∧
    normalizeTransaction "f2" "2025-01-01"
        (txToRaw (normalizeTransaction "f1" "2024-01-01" xRawMixed)) =
      normalizeTransaction "f1" "2024-01-01" xRawMixed :=
  c8_normalization_idempotent "f" "2024-01-01" tCanon xRawMixed "f1" "2024-01-01"
    "f2" "2025-01-01" ⟨by decide, by decide, by decide, by decide⟩
    (by decide) (by decide)

/-- C9 counterexample: a raw record whose penerimaan arrives as the bare
number 5000 is NOT wrapped under the default category: it fails both the
typeof string and the typeof object test, so the normalized income map is
empty rather than the claimed single default-category entry. -/
theorem c9_counterexample :
    (normalizeTransaction "tx-1" "2024-01-01" rawNumIncome).penerimaan = [] ∧
    ([] : List (String × Int)) ≠ [("Penerimaan", 5000)] :=
  ⟨rfl, by decide⟩

/-- C9 amended: only a bare STRING penerimaan/pengeluaran is wrapped under the
fixed default category name (Penerimaan respectively Pengeluaran) with the
coerced numeric value, coercion failure yielding 0; a bare number is not
wrapped and yields the empty map. -/
theorem c9_default_category_wrapping (fid today s : String) (n : Int)
    (tx txe txn : RawTx)
    (hs : tx.penerimaan = RawField.str s)
    (he : txe.pengeluaran = RawField.str s)
    (hn : txn.penerimaan = RawField.num n) :
    (normalizeTransaction fid today tx).penerimaan =
      [("Penerimaan", jsNumber (JsVal.str s))] ∧
    (normalizeTransaction fid today txe).pengeluaran =
      [("Pengeluaran", jsNumber (JsVal.str s))] ∧
    (normalizeTransaction fid today txn).penerimaan = [] ∧
    jsNumber (JsVal.str "abc") = 0 := by
  refine ⟨?_, ?_, ?_, by decide⟩ <;> simp [normalizeTransaction, normField, hs, he, hn]

theorem c9_default_category_wrapping_witness :
    (normalizeTransaction "f" "2024-01-01" rawStrIncome).penerimaan =
      [("Penerimaan", jsNumber (JsVal.str "5000"))] ∧
    (normalizeTransaction "f" "2024-01-01" rawStrExpense).pengeluaran =
      [("Pengeluaran", jsNumber (JsVal.str "5000"))] ∧
    (normalizeTransaction "f" "2024-01-01" rawNumIncome).penerimaan = [] ∧
    jsNumber (JsVal.str "abc") = 0 :=
  c9_default_category_wrapping "f" "2024-01-01" "5000" 5000
    rawStrIncome rawStrExpense rawNumIncome rfl rfl rfl

lemma createAccount_saldo_zero (env : Env) (nm : String) (ts : List TransactionItem) :
    (((createAccount env nm ts).transactions).all
      (fun t => t.saldo_berjalan == 0)) = true := by
  rw [List.all_eq_true]
  intro t ht
  rcases List.mem_map.1 ht with ⟨p, hp, rfl⟩
  rfl

/-- C10: normalizeTransaction unconditionally writes running balance 0 (any
supplied saldo_berjalan is discarded), and therefore every transaction stored
by a createAccount pass, by UPDATE_ACCOUNT, or by the account appended by
ADD_ACCOUNT, has running balance 0. -/
theorem c10_running_balance_discarded (fid today : String) (x : RawTx)
    (env : Env) (s : AppState) (nm : String) (ts : List TransactionItem)
    (payload : AccountBase) :
    (normalizeTransaction fid today x).saldo_berjalan = 0 ∧
    (((createAccount env nm ts).transactions).all
        (fun t => t.saldo_berjalan == 0)) = true ∧
    (((appReducer env s (.updateAccount nm ts)).accounts).all
        (fun a => a.name != nm || (a.transactions.all (fun t => t.saldo_berjalan == 0)))) = true ∧
    (((appReducer env s (.addAccount payload)).accounts).all
        (fun a => decide (a ∈ s.accounts) ||
          (a.transactions.all (fun t => t.saldo_berjalan == 0)))) = true := by
  refine ⟨rfl, createAccount_saldo_zero env nm ts, ?_, ?_⟩
  · rw [List.all_eq_true]
    intro a ha
    simp only [appReducer] at ha
    rcases List.mem_map.1 ha with ⟨b, hb, rfl⟩
    by_cases h : b.name = nm
    · have h2 := createAccount_saldo_zero env nm ts
      simp [h, h2]
    · simp [h]
  · simp only [appReducer]
    split
    · rw [List.all_eq_true]
      intro a ha
      simp [ha]
    · rw [List.all_eq_true]
      intro a ha
      rcases List.mem_append.1 ha with h | h
      · simp [h]
      · rcases List.mem_singleton.1 h with rfl
        simp [createAccount_saldo_zero]

lemma firstName_mem {l : List AccountBase} {c : String} (h : firstName l = some c) :
    ∃ a ∈ l, a.name = c := by
  cases l with
  | nil => simp [firstName] at h
  | cons a rest =>
      by_cases he : a.name = ""
      · simp [firstName, he] at h
      · simp [firstName, he] at h
        exact ⟨a, List.mem_cons_self a rest, h⟩

lemma setAccounts_pointer (env : Env) (s : AppState) (payload : List AccountBase)
    (g1 : ∀ c, s.currentAccount = some c → c ≠ "" → ∃ a ∈ payload, a.name = c)
    (g2 : ∀ a, payload.head? = some a → a.name ≠ "") :
    pointerValid (appReducer env s (.setAccounts payload)) := by
  have hres : (appReducer env s (.setAccounts payload)).accounts
      = payload.map (fun a => { a with balance := calculateAccountBalance a.transactions }) :=
    rfl
  have hcur : (appReducer env s (.setAccounts payload)).currentAccount
      = jsOrOpt s.currentAccount
          (firstName (payload.map
            (fun a => { a with balance := calculateAccountBalance a.transactions }))) := rfl
  have hname : ∀ c, (∃ a ∈ payload, a.name = c) →
      ∃ a ∈ payload.map (fun a => { a with balance := calculateAccountBalance a.transactions }),
        a.name = c := by
    rintro c ⟨a, haMem, rfl⟩
    exact ⟨_, List.mem_map_of_mem _ haMem, rfl⟩
  constructor
  · intro c hc
    rw [hcur] at hc
    rw [hres]
    cases hc0 : s.currentAccount with
    | none =>
        rw [hc0] at hc
        simp only [jsOrOpt] at hc
        exact firstName_mem hc
    | some c0 =>
        by_cases hce : c0 = ""
        · rw [hc0] at hc
          simp only [jsOrOpt, hce, if_pos rfl] at hc
          exact firstName_mem (by simpa [hce] using hc)
        · rw [hc0] at hc
          simp only [jsOrOpt, if_neg hce] at hc
          obtain rfl : c0 = c := Option.some.inj hc
          exact hname c0 (g1 c0 hc0 hce)
  · intro hne
    rw [hres] at hne
    have hpay : payload ≠ [] := by
      intro h
      exact hne (by simp [h])
    obtain ⟨a, rest, rfl⟩ := List.exists_cons_of_ne_nil hpay
    have hhead : a.name ≠ "" := g2 a rfl
    have hfn : firstName ((a :: rest).map
        (fun a => { a with balance := calculateAccountBalance a.transactions })) = some a.name := by
      simp [firstName, hhead]
    rw [hcur, hfn]
    cases hc0 : s.currentAccount with
    | none => simp [jsOrOpt]
    | some c0 => by_cases hce : c0 = "" <;> simp [jsOrOpt, hce]

lemma update_map_id (env : Env) (nm : String) (ts : List TransactionItem)
    (l : List AccountBase) (hall : ∀ a ∈ l, a.name ≠ nm) :
    l.map (fun a => if a.name = nm then createAccount env nm ts else a) = l := by
  induction l with
  | nil => rfl
  | cons a rest ih =>
      have h1 : a.name ≠ nm := hall a (List.mem_cons_self a rest)
      simp only [List.map_cons, if_neg h1]
      rw [ih (fun b hb => hall b (List.mem_cons_of_mem a hb))]

/-- C5 counterexample: the pointer invariant does not hold in every reachable
state: a single SET_CURRENT_ACCOUNT dispatch with an unknown name, which the
reducer stores without any existence validation, reaches a state whose
current-account pointer names no account. -/
theorem c5_counterexample : Reachable ghostState ∧ ¬ pointerValid ghostState := by
  constructor
  · exact Reachable.step env0 (.setCurrentAccount (some "ghost")) Reachable.init
  · rintro ⟨h1, _⟩
    obtain ⟨a, haMem, _⟩ := h1 "ghost" rfl
    exact (List.not_mem_nil a) haMem

/-- C5 amended: the pointer invariant (currentAccount null or naming an
existing account, and non-null whenever accounts exist) is preserved by every
reducer step whose payload is valid: ADD_ACCOUNT, UPDATE_ACCOUNT and the flag
actions unconditionally; SET_CURRENT_ACCOUNT only when the name exists (null
only on an empty store); SET_ACCOUNTS only when the payload retains the
current account and does not start with an empty-named account. Without these
side conditions the reducer can break the invariant (see the counterexample). -/
theorem c5_pointer_preserved (env : Env) (s : AppState) (act : AppAction)
    (hs : pointerValid s) (ha : validAction s act) :
    pointerValid (appReducer env s act) := by
  obtain ⟨h1, h2⟩ := hs
  cases act with
  | setAccounts payload => exact setAccounts_pointer env s payload ha.1 ha.2
  | setCurrentAccount p =>
      cases p with
      | some c =>
          refine ⟨?_, ?_⟩
          · intro c2 hc2
            obtain rfl : c = c2 := Option.some.inj hc2
            exact ha
          · intro _
            exact Option.noConfusion
      | none =>
          refine ⟨?_, ?_⟩
          · intro c hc
            exact Option.noConfusion hc
          · intro hne
            exact absurd ha hne
  | updateAccount nm ts =>
      refine ⟨?_, ?_⟩
      · intro c hc
        obtain ⟨a, haMem, haName⟩ := h1 c hc
        refine ⟨if a.name = nm then createAccount env nm ts else a,
                List.mem_map_of_mem _ haMem, ?_⟩
        by_cases hh : a.name = nm
        · rw [if_pos hh]
          show nm = c
          rw [← hh]
          exact haName
        · rw [if_neg hh]
          exact haName
      · intro hne
        apply h2
        intro hnil
        apply hne
        show (s.accounts.map _) = []
        simp [hnil]
  | addAccount payload =>
      by_cases hdup : (s.accounts.any (fun a =>
          a.name == jsOrStr payload.name
            ("Akun Baru " ++ toString (s.accounts.length + 1)))) = true
      · have hsame : appReducer env s (.addAccount payload) = s := by
          simp [appReducer, hdup]
        rw [hsame]
        exact ⟨h1, h2⟩
      · have hres : (appReducer env s (.addAccount payload)).accounts
            = s.accounts ++ [createAccount env
                (jsOrStr payload.name ("Akun Baru " ++ toString (s.accounts.length + 1)))
                payload.transactions] := by
          simp [appReducer, hdup]
        have hcur : (appReducer env s (.addAccount payload)).currentAccount
            = some (jsOrStr payload.name
                ("Akun Baru " ++ toString (s.accounts.length + 1))) := by
          simp [appReducer, hdup]
        refine ⟨?_, ?_⟩
        · intro c hc
          rw [hcur] at hc
          obtain rfl := Option.some.inj hc
          rw [hres]
          exact ⟨createAccount env
              (jsOrStr payload.name ("Akun Baru " ++ toString (s.accounts.length + 1)))
              payload.transactions,
            List.mem_append_right _ (List.mem_singleton_self _), rfl⟩
        · intro _
          rw [hcur]
          exact Option.noConfusion
  | setLoading b => exact ⟨h1, h2⟩
  | setError e => exact ⟨h1, h2⟩
  | setBackendReady b => exact ⟨h1, h2⟩

theorem c5_pointer_preserved_witness :
    pointerValid (appReducer env0 initialState (.setLoading true)) :=
  c5_pointer_preserved env0 initialState (.setLoading true)
    ⟨fun _ hc => Option.noConfusion hc, fun hne => absurd rfl hne⟩ trivial

/-- C6 counterexample: the claim fails for a payload with an empty name. The
store holds only an account named Akun Baru 2 (so no account named the empty
string exists), yet ADD_ACCOUNT with an empty-named payload leaves the state
unchanged instead of appending: the reducer replaces the falsy name by the
default Akun Baru 2, which collides. -/
theorem c6_counterexample :
    (sDefault2.accounts.all (fun a => a.name != "")) = true ∧
    appReducer env0 sDefault2 (.addAccount emptyNamePayload) = sDefault2 :=
  ⟨by decide, by decide⟩

/-- C6 amended: for a payload with a NONEMPTY name, ADD_ACCOUNT leaves the
state completely unchanged when an account with that name exists, and
otherwise appends the new account (with balance freshly computed from its
transactions) and makes it current; an empty payload name is first replaced by
the generated default name Akun Baru followed by the count plus one, and the
duplicate check applies to that effective name. -/
theorem c6_add_account (env : Env) (s : AppState) (payload : AccountBase)
    (hname : payload.name ≠ "") :
    ((∃ a ∈ s.accounts, a.name = payload.name) →
        appReducer env s (.addAccount payload) = s) ∧
    ((¬ ∃ a ∈ s.accounts, a.name = payload.name) →
      (appReducer env s (.addAccount payload)).accounts =
          s.accounts ++ [createAccount env payload.name payload.transactions] ∧
      (appReducer env s (.addAccount payload)).currentAccount = some payload.name ∧
      (createAccount env payload.name payload.transactions).balance =
          calculateAccountBalance payload.transactions) := by
  have hAcc : jsOrStr payload.name ("Akun Baru " ++ toString (s.accounts.length + 1))
      = payload.name := by simp [jsOrStr, hname]
  constructor
  · rintro ⟨a, haMem, hEq⟩
    have hany : (s.accounts.any (fun b =>
        b.name == jsOrStr payload.name
          ("Akun Baru " ++ toString (s.accounts.length + 1)))) = true := by
      rw [List.any_eq_true]
      refine ⟨a, haMem, ?_⟩
      rw [hAcc]
      simp [hEq]
    simp [appReducer, hany]
  · intro hno
    have hany : (s.accounts.any (fun b =>
        b.name == jsOrStr payload.name
          ("Akun Baru " ++ toString (s.accounts.length + 1)))) = false := by
      rw [Bool.eq_false_iff]
      intro hx
      obtain ⟨a, haMem, hEq⟩ := List.any_eq_true.1 hx
      rw [hAcc] at hEq
      exact hno ⟨a, haMem, by simpa using hEq⟩
    rw [hAcc] at hany
    refine ⟨?_, ?_, rfl⟩ <;> simp [appReducer, hAcc, hany]

theorem c6_add_account_witness :
    appReducer env0 sOneA (.addAccount acctA) = sOneA :=
  (c6_add_account env0 sOneA acctA (by decide)).1 ⟨acctA, by decide, rfl⟩

/-- C7: UPDATE_ACCOUNT with name n and transactions ts keeps the
current-account pointer and the account count, replaces every account named n
by the freshly created account (normalized ts and recomputed balance), leaves
every account with a different name untouched in place, and is a no-op on the
whole state when no account is named n. -/
theorem c7_update_account_frame (env : Env) (s : AppState) (nm : String)
    (ts : List TransactionItem) :
    (appReducer env s (.updateAccount nm ts)).currentAccount = s.currentAccount ∧
    (appReducer env s (.updateAccount nm ts)).accounts.length = s.accounts.length ∧
    (∀ i (h : i < s.accounts.length)
        (h2 : i < (appReducer env s (.updateAccount nm ts)).accounts.length),
        ((s.accounts.get ⟨i, h⟩).name ≠ nm →
          (appReducer env s (.updateAccount nm ts)).accounts.get ⟨i, h2⟩ =
            s.accounts.get ⟨i, h⟩) ∧
        ((s.accounts.get ⟨i, h⟩).name = nm →
          (appReducer env s (.updateAccount nm ts)).accounts.get ⟨i, h2⟩ =
            createAccount env nm ts)) ∧
    ((∀ a ∈ s.accounts, a.name ≠ nm) → appReducer env s (.updateAccount nm ts) = s) := by
  refine ⟨rfl, ?_, ?_, ?_⟩
  · show (s.accounts.map _).length = s.accounts.length
    rw [List.length_map]
  · intro i h h2
    have hget : (appReducer env s (.updateAccount nm ts)).accounts.get ⟨i, h2⟩
        = (fun a => if a.name = nm then createAccount env nm ts else a)
            (s.accounts.get ⟨i, h⟩) := by
      show (s.accounts.map _).get ⟨i, h2⟩ = _
      rw [List.get_map]
    constructor
    · intro hne
      rw [hget]
      show (if (s.accounts.get ⟨i, h⟩).name = nm then createAccount env nm ts
            else s.accounts.get ⟨i, h⟩) = s.accounts.get ⟨i, h⟩
      rw [if_neg hne]
    · intro heq
      rw [hget]
      show (if (s.accounts.get ⟨i, h⟩).name = nm then createAccount env nm ts
            else s.accounts.get ⟨i, h⟩) = createAccount env nm ts
      rw [if_pos heq]
  · intro hall
    have hred : appReducer env s (.updateAccount nm ts) = { s with accounts := (s.accounts.map (fun a => if a.name = nm then createAccount env nm ts else a)) } := rfl
    rw [hred, update_map_id env nm ts s.accounts hall]

theorem c7_update_account_frame_witness :
    appReducer env0 sOneA (.updateAccount "Ghost" []) = sOneA :=
  (c7_update_account_frame env0 sOneA "Ghost" []).2.2.2 (by decide)

lemma normalize_jumlah_net (fid today : String) (x : RawTx) :
    (normalizeTransaction fid today x).jumlah =
      txNet (normalizeTransaction fid today x) := rfl

lemma createAccount_jumlah_net (env : Env) (nm : String) (ts : List TransactionItem) :
    (((createAccount env nm ts).transactions).all
      (fun t => t.jumlah == txNet t)) = true := by
  rw [List.all_eq_true]
  intro t ht
  rcases List.mem_map.1 ht with ⟨p, hp, rfl⟩
  exact beq_iff_eq.2 rfl

/-- C1 counterexample: the invariant fails on the upload path. Parsing a sheet
whose jumlah cell is the nonzero number 999 while its only category column
holds 100, then passing the result through processAndUpdateAccounts and
SET_ACCOUNTS, stores a transaction whose jumlah is 999 although its
income-minus-expense net is 100: a nonzero external jumlah is kept without
recomputation. -/
theorem c1_counterexample :
    ((parseSheetAccount env0 "acc-kas" "Kas" c1Header [c1Row]).map
        (fun acct => (uploadState env0 [acct] initialState).accounts.map
          (fun a => a.transactions.map (fun t => (t.jumlah, txNet t)))))
      = some [[(999, 100)]] ∧ (999 : Int) ≠ 100 :=
  ⟨by decide, by decide⟩

/-- C1 amended: the amount invariant holds after every normalizeTransaction
pass, and hence for every transaction stored by the editor save path
(UPDATE_ACCOUNT) and by the account ADD_ACCOUNT appends; it does NOT hold on
the upload path, where the parser copies a nonzero numeric jumlah cell
verbatim and processAndUpdateAccounts recomputes only when the supplied
jumlah is 0 (see the counterexample). -/
theorem c1_amount_derivation (fid today : String) (x : RawTx) (env : Env)
    (s : AppState) (nm : String) (ts : List TransactionItem) (payload : AccountBase) :
    (normalizeTransaction fid today x).jumlah =
        txNet (normalizeTransaction fid today x) ∧
    (((appReducer env s (.updateAccount nm ts)).accounts).all
        (fun a => a.name != nm ||
          a.transactions.all (fun t => t.jumlah == txNet t))) = true ∧
    (((appReducer env s (.addAccount payload)).accounts).all
        (fun a => decide (a ∈ s.accounts) ||
          a.transactions.all (fun t => t.jumlah == txNet t))) = true := by
  refine ⟨rfl, ?_, ?_⟩
  · rw [List.all_eq_true]
    intro a ha
    rcases List.mem_map.1 ha with ⟨b, hb, rfl⟩
    by_cases h : b.name = nm
    · have h2 := createAccount_jumlah_net env nm ts
      simp [h, h2]
    · simp [h]
  · simp only [appReducer]
    split
    · rw [List.all_eq_true]
      intro a ha
      simp [ha]
    · rw [List.all_eq_true]
      intro a ha
      rcases List.mem_append.1 ha with h | h
      · simp [h]
      · rcases List.mem_singleton.1 h with rfl
        simp [createAccount_jumlah_net]

/-- C2: the concrete scenario. Parsing the sheet with header tanggal, uraian,
jumlah, penerimaan_gaji, pengeluaran_sewa and the single row 2024-01-15,
Gaji bulanan, 0, 5000000, 0 through the upload pipeline (handleFileUpload,
then processAndUpdateAccounts with both its dispatches) stores exactly one
account holding exactly one transaction: date 2024-01-15, description Gaji
bulanan, income map with the single entry gaji to 5000000, empty expense map,
amount 5000000 and running balance 5000000 as the account's first entry, the
account's balance being 5000000. (The second conjunct records the
current-account pointer the pipeline additionally leaves behind: the
generated account id of mappedAccounts[0].id, not the account name; the
claim does not constrain the pointer.) -/
theorem c2_parse_scenario :
    ((parseSheetAccount env0 "acc-akun1" "Akun1" c2Header [c2Row]).map
        (fun acct => (uploadState env0 [acct] initialState).accounts))
      = some
          [{ name := "Akun1"
             transactions :=
               [{ id := "tx-0"
                  tanggal := "2024-01-15"
                  uraian := "Gaji bulanan"
                  penerimaan := [("gaji", 5000000)]
                  pengeluaran := []
                  jumlah := 5000000
                  saldo_berjalan := 5000000 }]
             balance := 5000000 }] ∧
    ((parseSheetAccount env0 "acc-akun1" "Akun1" c2Header [c2Row]).map
        (fun acct => (uploadState env0 [acct] initialState).currentAccount))
      = some (some "acc-akun1") :=
  ⟨by decide, by decide⟩

lemma lastRB_snoc (r0 : Int) (l : List BalanceReport) (e : BalanceReport) :
    lastRB r0 (l ++ [e]) = e.runningBalance := by
  induction l generalizing r0 with
  | nil => rfl
  | cons a rest ih => exact ih a.runningBalance

lemma chainFrom_snoc (r0 : Int) (l : List BalanceReport) (e : BalanceReport)
    (h : chainFrom r0 l) (he : e.runningBalance = lastRB r0 l + e.balance) :
    chainFrom r0 (l ++ [e]) := by
  induction l generalizing r0 with
  | nil => exact ⟨he, trivial⟩
  | cons a rest ih =>
      obtain ⟨h1, h2⟩ := h
      exact ⟨h1, ih a.runningBalance h2 he⟩

lemma foldl_reportStep_chain (r0 : Int) (l : List TransactionItem) (acc : ReportAcc)
    (h : chainFrom r0 acc.running) (hrb : acc.rb = lastRB r0 acc.running) :
    chainFrom r0 ((l.foldl reportStep acc).running) ∧
    (l.foldl reportStep acc).rb = lastRB r0 ((l.foldl reportStep acc).running) := by
  induction l generalizing acc with
  | nil => exact ⟨h, hrb⟩
  | cons t rest ih =>
      apply ih
      · apply chainFrom_snoc r0 acc.running _ h
        show acc.rb + (sumVals t.penerimaan - sumVals t.pengeluaran)
          = lastRB r0 acc.running + (sumVals t.penerimaan - sumVals t.pengeluaran)
        rw [hrb]
      · show acc.rb + (sumVals t.penerimaan - sumVals t.pengeluaran)
          = lastRB r0 (acc.running ++ [_])
        rw [lastRB_snoc, hrb]

lemma foldl_reportStep_dates (l : List TransactionItem) (acc : ReportAcc) :
    ((l.foldl reportStep acc).running).map (fun e => e.date)
      = acc.running.map (fun e => e.date) ++ l.map (fun t => t.tanggal) := by
  induction l generalizing acc with
  | nil => simp
  | cons t rest ih =>
      rw [List.foldl_cons, ih]
      simp [reportStep]

/-- C3 counterexample: the transaction editor's running-balance series (also a
running-balance pass held in component state) is computed in insertion order
with NO date sort: for the two transactions dated 2024-01-10 (net +100) and
2024-01-05 (net -30) inserted in that order it yields the series 100 then 70,
not the claimed chronological -30 then 70, and its rows are not date-sorted. -/
theorem c3_counterexample :
    (transactionsWithRunningBalance [txJan10, txJan05]).map
        (fun t => t.saldo_berjalan) = [100, 70] ∧
    (transactionsWithRunningBalance [txJan10, txJan05]).map
        (fun t => t.saldo_berjalan) ≠ [-30, 70] ∧
    ¬ List.Sorted (fun a b => dateKey a.tanggal ≤ dateKey b.tanggal)
        (transactionsWithRunningBalance [txJan10, txJan05]) :=
  ⟨by decide, by decide, by decide⟩

/-- C3 amended: the reports generator computes the running-balance series over
the date-sorted transaction list (stable sort; the tie conjunct shows two
same-dated transactions keep their original order) and satisfies the claimed
recurrence: each row's running balance is the previous row's (starting from 0)
plus the row's own balance; in particular the two transactions dated
2024-01-10 (+100) and 2024-01-05 (-30), inserted in that order, yield -30 then
70 chronologically. The transaction editor's series, by contrast, accumulates
in insertion order without sorting (see the counterexample), where the same
recurrence holds along the unsorted order. -/
theorem c3_running_balance (ts : List TransactionItem) :
    chainFrom 0 ((generateReports ts).running) ∧
    ((generateReports ts).running).map (fun e => e.date)
        = (sortedByDate ts).map (fun t => t.tanggal) ∧
    List.Sorted (fun a b : String => dateKey a ≤ dateKey b)
        (((generateReports ts).running).map (fun e => e.date)) ∧
    (generateReports [txJan10, txJan05]).running.map
        (fun e => (e.date, e.runningBalance)) = [("2024-01-05", -30), ("2024-01-10", 70)] ∧
    sortedByDate [txTieA, txTieB] = [txTieA, txTieB] := by
  have hchain := foldl_reportStep_chain 0 (sortedByDate ts)
    { running := [], rb := 0, monthly := [], yearly := [] } trivial rfl
  have hdates := foldl_reportStep_dates (sortedByDate ts)
    { running := [], rb := 0, monthly := [], yearly := [] }
  refine ⟨hchain.1, by simpa using hdates, ?_, by decide, by decide⟩
  · have hsorted : List.Sorted dateLe (sortedByDate ts) :=
      List.sorted_insertionSort dateLe ts
    have hmap : List.Sorted (fun a b : String => dateKey a ≤ dateKey b)
        ((sortedByDate ts).map (fun t => t.tanggal)) := by
      rw [List.Sorted, List.pairwise_map]
      exact hsorted.imp (fun h => h)
    rw [show ((generateReports ts).running).map (fun e => e.date)
        = (sortedByDate ts).map (fun t => t.tanggal) from by simpa using hdates]
    exact hmap

lemma bump_netSum (l : List (String × Int × Int)) (k : String) (i e : Int) :
    netSum (bump l k i e) = netSum l + (i - e) := by
  induction l with
  | nil => simp [bump, netSum]
  | cons a rest ih =>
      by_cases h : a.1 = k
      · simp only [bump, if_pos h, netSum, List.map_cons, List.sum_cons]
        ring
      · simp only [bump, if_neg h, netSum, List.map_cons, List.sum_cons] at ih ⊢
        rw [ih]
        ring

lemma foldl_reportStep_net (l : List TransactionItem) (acc : ReportAcc) :
    netSum ((l.foldl reportStep acc).monthly) = netSum acc.monthly + (l.map txNet).sum ∧
    netSum ((l.foldl reportStep acc).yearly) = netSum acc.yearly + (l.map txNet).sum := by
  induction l generalizing acc with
  | nil => simp
  | cons t rest ih =>
      obtain ⟨ih1, ih2⟩ := ih (reportStep acc t)
      constructor
      · rw [List.foldl_cons, ih1]
        show netSum (bump acc.monthly (monthKey t.tanggal) (sumVals t.penerimaan)
            (sumVals t.pengeluaran)) + _ = _
        rw [bump_netSum]
        simp [txNet]
        ring
      · rw [List.foldl_cons, ih2]
        show netSum (bump acc.yearly (yearKey t.tanggal) (sumVals t.penerimaan)
            (sumVals t.pengeluaran)) + _ = _
        rw [bump_netSum]
        simp [txNet]
        ring

lemma calculateAccountBalance_eq_sum (ts : List TransactionItem) :
    calculateAccountBalance ts = (ts.map txNet).sum := by
  have h : ∀ (l : List TransactionItem) (b : Int),
      l.foldl (fun balance t => balance + (sumVals t.penerimaan - sumVals t.pengeluaran)) b
        = b + (l.map txNet).sum := by
    intro l
    induction l with
    | nil => intro b; simp
    | cons t rest ih =>
        intro b
        rw [List.foldl_cons, ih]
        simp [txNet]
        ring
  simpa [calculateAccountBalance] using h ts 0

lemma netSum_sortByKey (l : List (String × Int × Int)) :
    netSum (sortByKey l) = netSum l := by
  have hperm : (sortByKey l).Perm l := List.perm_insertionSort keyLe l
  exact (hperm.map (fun e => e.2.1 - e.2.2)).sum_eq

lemma map_balance_toPeriod (l : List (String × Int × Int)) :
    ((l.map toPeriod).map (fun b => b.balance)).sum = netSum l := by
  rw [List.map_map]
  rfl

/-- C4: aggregate conservation and bucket ordering. For every transaction
list, the sum of the monthly buckets' net balances and the sum of the yearly
buckets' net balances both equal calculateAccountBalance (the account's
derived balance); over the integer amounts the app stores the equality is
exact, which in particular puts it within any floating-point tolerance. Both
bucket lists are emitted sorted ascending by period key. -/
theorem c4_aggregate_conservation (ts : List TransactionItem) :
    (((generateReports ts).monthly).map (fun b => b.balance)).sum
        = calculateAccountBalance ts ∧
    (((generateReports ts).yearly).map (fun b => b.balance)).sum
        = calculateAccountBalance ts ∧
    List.Sorted (fun a b : BalanceByPeriod => a.period ≤ b.period)
        ((generateReports ts).monthly) ∧
    List.Sorted (fun a b : BalanceByPeriod => a.period ≤ b.period)
        ((generateReports ts).yearly) := by
  have hnet := foldl_reportStep_net (sortedByDate ts)
    { running := [], rb := 0, monthly := [], yearly := [] }
  have hpermTs : (sortedByDate ts).Perm ts := List.perm_insertionSort dateLe ts
  have hsum : ((sortedByDate ts).map txNet).sum = (ts.map txNet).sum :=
    (hpermTs.map txNet).sum_eq
  constructor
  · rw [show (generateReports ts).monthly = (sortByKey ((sortedByDate ts).foldl reportStep
        { running := [], rb := 0, monthly := [], yearly := [] }).monthly).map toPeriod from rfl]
    rw [map_balance_toPeriod, netSum_sortByKey, hnet.1, calculateAccountBalance_eq_sum,
      ← hsum]
    simp [netSum]
  constructor
  · rw [show (generateReports ts).yearly = (sortByKey ((sortedByDate ts).foldl reportStep
        { running := [], rb := 0, monthly := [], yearly := [] }).yearly).map toPeriod from rfl]
    rw [map_balance_toPeriod, netSum_sortByKey, hnet.2, calculateAccountBalance_eq_sum,
      ← hsum]
    simp [netSum]
  constructor
  · have hs : List.Sorted keyLe (sortByKey ((sortedByDate ts).foldl reportStep
        { running := [], rb := 0, monthly := [], yearly := [] }).monthly) :=
      List.sorted_insertionSort keyLe _
    rw [show (generateReports ts).monthly = (sortByKey ((sortedByDate ts).foldl reportStep
        { running := [], rb := 0, monthly := [], yearly := [] }).monthly).map toPeriod from rfl]
    rw [List.Sorted, List.pairwise_map]
    exact hs.imp (fun h => h)
  · have hs : List.Sorted keyLe (sortByKey ((sortedByDate ts).foldl reportStep
        { running := [], rb := 0, monthly := [], yearly := [] }).yearly) :=
      List.sorted_insertionSort keyLe _
    rw [show (generateReports ts).yearly = (sortByKey ((sortedByDate ts).foldl reportStep
        { running := [], rb := 0, monthly := [], yearly := [] }).yearly).map toPeriod from rfl]
    rw [List.Sorted, List.pairwise_map]
    exact hs.imp (fun h => h)

end Accounting
